import Mathlib

/-!
Verification of the cleon session/process bridge (backend.py, magic.py)
against its natural-language specification.  The Python source is shallowly
embedded: JSON values become an inductive type, the stateful session loop
becomes a recursive function over the list of raw output lines (each line
represented by its json.loads outcome), and fallible I/O primitives are
driven by explicit oracles.
-/

namespace Cleon

/-- JSON values, as produced by json.loads on one protocol line. -/
inductive JVal where
  | null
  | bool (b : Bool)
  | num (n : Int)
  | str (s : String)
  | arr (xs : List JVal)
  | obj (kvs : List (String × JVal))

/-- Dictionary lookup, `payload.get(k)` on a parsed JSON object. -/
def jLookup (kvs : List (String × JVal)) (k : String) : Option JVal :=
  match kvs with
  | [] => none
  | (k2, v) :: rest => if k2 == k then some v else jLookup rest k

/-- Embeds `isinstance(payload.get(k), str)` returning the string when it is one. -/
def strField (kvs : List (String × JVal)) (k : String) : Option String :=
  match jLookup kvs k with
  | some (.str s) => some s
  | _ => none

/-- Embeds `payload["msg"].get(k)` guarded by the isinstance dict/str checks. -/
def msgStrField (kvs : List (String × JVal)) (k : String) : Option String :=
  match jLookup kvs "msg" with
  | some (.obj mkvs) => strField mkvs k
  | _ => none

/-- Embeds `payload.get("type") == t` on a parsed JSON object. -/
def typeIs (kvs : List (String × JVal)) (t : String) : Bool :=
  match jLookup kvs "type" with
  | some (.str s) => s == t
  | _ => false

/-- The session-resumption metadata held by SharedSession
(`session_id`, `resume_command`, `rollout_path` in backend.py). -/
structure SessionMeta where
  session_id : Option String
  resume_command : Option String
  rollout_path : Option String
deriving DecidableEq

/-- Embeds `if isinstance(payload.get(k), str): field = payload[k]` — overwrite the
current value exactly when the event carries a string (possibly empty). -/
def setIfStr (cur : Option String) (v : Option String) : Option String :=
  match v with
  | some s => some s
  | none => cur

/-- The `session_id` component of `SharedSession._capture_session_metadata`:
the `session.resume` branch may overwrite, then the fill-if-None branch
consults the top-level field and then `msg.session_id`. -/
def capture_session_id (cur : Option String) (payload : JVal) : Option String :=
  match payload with
  | .obj kvs =>
    let afterResume :=
      if typeIs kvs "session.resume" then setIfStr cur (strField kvs "session_id")
      else cur
    match afterResume with
    | some s => some s
    | none =>
      match strField kvs "session_id" with
      | some s => some s
      | none =>
        match msgStrField kvs "session_id" with
        | some s => some s
        | none => none
  | _ => cur

/-- The `resume_command` component of `_capture_session_metadata`: only the
`session.resume` branch can change it. -/
def capture_resume_command (cur : Option String) (payload : JVal) : Option String :=
  match payload with
  | .obj kvs =>
    if typeIs kvs "session.resume" then setIfStr cur (strField kvs "resume_command")
    else cur
  | _ => cur

/-- The `rollout_path` component of `_capture_session_metadata`: the
`session.resume` branch may overwrite, then the fill-if-None branch consults
the top-level field and then `msg.rollout_path`. -/
def capture_rollout_path (cur : Option String) (payload : JVal) : Option String :=
  match payload with
  | .obj kvs =>
    let afterResume :=
      if typeIs kvs "session.resume" then setIfStr cur (strField kvs "rollout_path")
      else cur
    match afterResume with
    | some s => some s
    | none =>
      match strField kvs "rollout_path" with
      | some s => some s
      | none =>
        match msgStrField kvs "rollout_path" with
        | some s => some s
        | none => none
  | _ => cur

/-- Embeds `SharedSession._capture_session_metadata` (backend.py 222-255).  The three
fields are updated independently; non-dict payloads and malformed shapes leave
everything unchanged, and the function never raises (its body is guarded by
isinstance checks and wrapped in try/except). -/
def capture_session_metadata (m : SessionMeta) (payload : JVal) : SessionMeta :=
  { session_id := capture_session_id m.session_id payload
    resume_command := capture_resume_command m.resume_command payload
    rollout_path := capture_rollout_path m.rollout_path payload }

/-- The event carries string `s` for key `k` where `_capture_session_metadata`
looks: at top level or nested under `msg`. -/
def carriesStr (payload : JVal) (k : String) (s : String) : Prop :=
  match payload with
  | .obj kvs => strField kvs k = some s ∨ msgStrField kvs k = some s
  | _ => False

/-! ### The `SharedSession.send` read loop (backend.py 145-182)

Each raw output line is represented by its `json.loads` outcome: `none` for a
line that fails to parse, `some j` for a line parsing to `j`.  The loop runs
until the channel closes (end of the list) or it breaks at a terminal event.
Python exceptions escaping `send` are the `Except.error` cases. -/

/-- Ways the read loop of `send` can raise. -/
inductive SendErr where
  /-- `RuntimeError("cleon output missing turn.result payload")`. -/
  | missingTurnResult
  /-- `AttributeError`: `parsed.get("type")` on a parsed value that is not a
  dict (backend.py 154 is not isinstance-guarded). -/
  | attrError
  /-- An exception raised by the caller-supplied `on_approval` callback
  (backend.py 156 is not wrapped in try/except). -/
  | approvalCbError
deriving DecidableEq

/-- Embeds `parsed.get("type") == "turn.result" and "result" in parsed` with the
isinstance dict guard (backend.py 168-172). -/
def isTerminal (j : JVal) : Bool :=
  match j with
  | .obj kvs => typeIs kvs "turn.result" && (jLookup kvs "result").isSome
  | _ => false

/-- Embeds `parsed["result"]` of a terminal event. -/
def resultOf (j : JVal) : Option JVal :=
  match j with
  | .obj kvs => jLookup kvs "result"
  | _ => none

/-- Outcome of the approval branch on one event (backend.py 154-162):
raised = `on_approval` itself raised; relayed = a non-empty decision string is
written back and the loop continues; fallthrough = no callback, or an empty /
None decision, or not an approval event at all. -/
inductive ApprovalPhase where
  | raised
  | relayed (d : String)
  | fallthrough

/-- The approval branch of the loop body, evaluated on a parsed dict event. -/
def approvalPhase (onApproval : Option (JVal → Except Unit (Option String)))
    (kvs : List (String × JVal)) (j : JVal) : ApprovalPhase :=
  if typeIs kvs "approval.request" then
    match onApproval with
    | some cb =>
      match cb j with
      | .error _ => .raised
      | .ok (some d) => if d ≠ "" then .relayed d else .fallthrough
      | .ok none => .fallthrough
    | none => .fallthrough
  else .fallthrough

/-- Result of one run of the `send` read loop.  `outcome` is the value
returned by `send` (terminal result and ordered events list) or the exception
it raises; `meta` is the session metadata after the captures; `writes` are the
approval decision lines written back to the process; `delivered` records, for
each `on_event` invocation, whether the callback returned normally (the
try/except at backend.py 163-167 discards the distinction). -/
structure SendOut where
  outcome : Except SendErr (JVal × List JVal)
  meta : SessionMeta
  writes : List String
  delivered : List Bool

/-- The best-effort `on_event` invocation (backend.py 163-167): record whether
the callback returned normally; its failure has no other effect. -/
def deliveredStep (onEvent : Option (JVal → Except Unit Unit)) (j : JVal)
    (dv : List Bool) : List Bool :=
  match onEvent with
  | some f => dv ++ [(f j).isOk]
  | none => dv

/-- The `send` read loop (backend.py 147-182) over the remaining output lines,
accumulating the events list, approval writes and `on_event` deliveries.  The
final-check `if final is None: raise` is the empty-list case. -/
def sendLoop (onEvent : Option (JVal → Except Unit Unit))
    (onApproval : Option (JVal → Except Unit (Option String))) :
    List (Option JVal) → SessionMeta → List JVal → List String → List Bool → SendOut
  | [], m, _evs, ws, dv => ⟨.error .missingTurnResult, m, ws, dv⟩
  | none :: rest, m, evs, ws, dv => sendLoop onEvent onApproval rest m evs ws dv
  | some j :: rest, m, evs, ws, dv =>
    let m2 := capture_session_metadata m j
    let evs2 := evs ++ [j]
    match j with
    | .obj kvs =>
      match approvalPhase onApproval kvs (.obj kvs) with
      | .raised => ⟨.error .approvalCbError, m2, ws, dv⟩
      | .relayed d => sendLoop onEvent onApproval rest m2 evs2 (ws ++ [d]) dv
      | .fallthrough =>
        let dv2 := deliveredStep onEvent (.obj kvs) dv
        if typeIs kvs "turn.result" then
          match jLookup kvs "result" with
          | some r => ⟨.ok (r, evs2), m2, ws, dv2⟩
          | none => sendLoop onEvent onApproval rest m2 evs2 ws dv2
        else sendLoop onEvent onApproval rest m2 evs2 ws dv2
    | _ => ⟨.error .attrError, m2, ws, dv⟩

/-- Embeds `SharedSession.send` restricted to its read loop, started with empty
accumulators (events, writes, deliveries). -/
def sendModel (onEvent : Option (JVal → Except Unit Unit))
    (onApproval : Option (JVal → Except Unit (Option String)))
    (lines : List (Option JVal)) (m : SessionMeta) : SendOut :=
  sendLoop onEvent onApproval lines m [] [] []

/-- The ContextTracker state: the `last_seen` cursor. -/
structure ContextTracker where
  last_seen : Int
deriving DecidableEq

/-- Tests that `needle` is an initial segment of `hay` (on character lists). -/
def charsPrefixOf : List Char → List Char → Bool
  | [], _ => true
  | _ :: _, [] => false
  | a :: as, b :: bs => a == b && charsPrefixOf as bs

/-- Tests that `needle` occurs contiguously inside `hay` (on character lists). -/
def charsSubOf (needle : List Char) : List Char → Bool
  | [] => needle.isEmpty
  | b :: bs => charsPrefixOf needle (b :: bs) || charsSubOf needle bs

/-- Python whitespace for `str.strip()`: space, tab, LF, CR, VT, FF. -/
def isPyWS (c : Char) : Bool :=
  c == ' ' || c == Char.ofNat 9 || c == Char.ofNat 10 || c == Char.ofNat 13
    || c == Char.ofNat 11 || c == Char.ofNat 12

/-- Python `str.strip()` on a character list. -/
def stripChars (l : List Char) : List Char :=
  ((l.dropWhile isPyWS).reverse.dropWhile isPyWS).reverse

/-- Python `str.strip()`. -/
def pyStrip (s : String) : String :=
  ⟨stripChars s.data⟩

/-- Python `str.startswith(p)`. -/
def pyStartsWith (s p : String) : Bool :=
  charsPrefixOf p.data s.data

/-- First `n` characters of a string. -/
def pyTake (s : String) (n : Nat) : String :=
  ⟨s.data.take n⟩

/-- A single quote character, used by the magic-invocation filters. -/
def squote : String := (Char.ofNat 39).toString

/-- Python substring test `needle in hay`. -/
def containsSub (hay needle : String) : Bool :=
  charsSubOf needle.toList hay.toList

/-- Python slice `s[:m]` for an arbitrary integer bound. -/
def pySliceTo (s : String) (m : Int) : String :=
  if 0 ≤ m then pyTake s m.toNat
  else pyTake s ((s.length : Int) + m).toNat

/-- Source / output truncation: keep the text when `max_chars` is None or the
text fits, otherwise cut at `max_chars` and append the truncation marker. -/
def truncateText (maxChars : Option Int) (s : String) : String :=
  match maxChars with
  | none => s
  | some m =>
    if (s.length : Int) ≤ m then s
    else pySliceTo s m ++ "\n... [truncated]"

/-- The skip filter of `build_block` (magic.py 1167-1178): an executed entry
qualifies unless it is a `%%codex` / `%%cleon_history` cell, any line magic,
or an IPython-internal re-invocation of those magics. -/
def qualifies (text : String) : Bool :=
  !(pyStartsWith text "%%codex"
    || pyStartsWith text "%%cleon_history"
    || pyStartsWith text "%"
    || containsSub text ("run_cell_magic(" ++ squote ++ "codex" ++ squote)
    || containsSub text ("run_cell_magic(" ++ "\"codex\"")
    || containsSub text ("run_cell_magic(" ++ squote ++ "cleon_history" ++ squote)
    || containsSub text ("run_cell_magic(" ++ "\"cleon_history\"")
    || containsSub text "run_line_magic(")

/-- Python `lst[-k:]` for `k > 0`: the last `k` elements. -/
def pyTakeLast (k : Int) (l : List α) : List α :=
  l.drop (l.length - k.toNat)

/-- Sliding-window mode test: `max_cells is not None and max_cells > 0`. -/
def slidingOn (maxCells : Option Int) : Bool :=
  match maxCells with
  | some k => 0 < k
  | none => false

/-- The start index of the window (magic.py 1152-1159): in sliding mode the
last `max_cells` raw entries, otherwise the entries strictly after
`last_seen`; both clamped below by 1 (entry 0 is the placeholder). -/
def windowStart (tr : ContextTracker) (histLen : Nat) (maxCells : Option Int) : Nat :=
  match maxCells with
  | some k =>
    if 0 < k then (max 1 ((histLen : Int) - k)).toNat
    else (max 1 (tr.last_seen + 1)).toNat
  | none => (max 1 (tr.last_seen + 1)).toNat

/-- The qualifying cells collected by the loop of `build_block`
(magic.py 1161-1193): for each index in the window, keep string entries that
pass the skip filter, truncating source and output independently; then
re-apply the `max_cells` cap (magic.py 1195-1197). -/
def build_cells (tr : ContextTracker) (history : List (Option String))
    (outputs : Nat → Option String) (maxCells maxChars : Option Int) :
    List (Nat × String × String) :=
  let L := history.length
  let start := windowStart tr L maxCells
  let cells := (List.range' start (L - start)).filterMap fun idx =>
    match history.getD idx none with
    | none => none
    | some src =>
      let text := pyStrip src
      if qualifies text then
        let codeBlock := truncateText maxChars text
        let outText := match outputs idx with
          | none => ""
          | some o => truncateText maxChars o
        some (idx, codeBlock, outText)
      else none
  match maxCells with
  | some k => if 0 < k then pyTakeLast k cells else cells
  | none => cells

/-- Formatting of the block (magic.py 1217-1224): one segment per cell,
segments joined by blank lines. -/
def formatCells (cells : List (Nat × String × String)) : String :=
  String.intercalate "\n\n" <| cells.map fun c =>
    String.intercalate "\n"
      ([("[cell " ++ toString c.1 ++ "]"), "code:", c.2.1] ++
        (if c.2.2 ≠ "" then ["output:", c.2.2] else []))

/-- Embeds `ContextTracker.build_block` (magic.py 1141-1224): returns the formatted
block and the tracker after the call.  `last_seen` advances to
`len(history) - 1` exactly when `peek` is not set (in both the empty and the
non-empty case); the block is empty when no qualifying entries exist. -/
def build_block (tr : ContextTracker) (history : List (Option String))
    (outputs : Nat → Option String) (maxCells maxChars : Option Int)
    (peek : Bool) : String × ContextTracker :=
  let cells := build_cells tr history outputs maxCells maxChars
  let tr2 := if peek then tr else ⟨(history.length : Int) - 1⟩
  if cells.isEmpty then ("", tr2)
  else (formatCells cells, tr2)

/-- Iterated peeking: a sequence of `build_block(..., peek=true)` calls, each
with its own history, outputs and window parameters. -/
def peekMany (tr : ContextTracker) :
    List (List (Option String) × (Nat → Option String) × Option Int × Option Int) →
    ContextTracker
  | [] => tr
  | a :: rest => peekMany (build_block tr a.1 a.2.1 a.2.2.1 a.2.2.2 true).2 rest

/-- The indices of the qualifying entries present anywhere in the history
(index ≥ 1, entry is a string, passes the skip filter) — the entries the
sliding-window claim says the window consists of. -/
def qualifyingIndices (history : List (Option String)) : List Nat :=
  (List.range' 1 (history.length - 1)).filter fun idx =>
    match history.getD idx none with
    | some src => qualifies (pyStrip src)
    | none => false

/-- Every one of the last `k` raw history entries is a qualifying string
entry. -/
def lastKAllQualify (history : List (Option String)) (k : Nat) : Bool :=
  (List.range' (history.length - k) k).all fun idx =>
    match history.getD idx none with
    | some src => qualifies (pyStrip src)
    | none => false

/-! ### `SharedSession._drain_stdout` (backend.py 184-220)

The channel is modelled by an oracle: per loop iteration one `select` outcome
and one `readline` outcome.  A read line is represented by its `json.loads`
outcome (`none` = unparseable).  Python file operations can raise, so both
primitives have an explicit failure case; an `Except.error` result is an
exception escaping `_drain_stdout`. -/

/-- One `readline()` outcome: a line (with its parse result), end-of-data
(`""`), or an exception. -/
inductive ReadEv where
  | line (p : Option JVal)
  | eof
  | fail

/-- One zero-timeout `select.select` outcome. -/
inductive SelEv where
  | ready
  | notReady
  | fail

/-- The state of `self.proc.stdout` as `_drain_stdout` sees it. -/
structure StdoutChan where
  /-- `stdout is not None`. -/
  present : Bool
  /-- `stdout.fileno()` succeeds. -/
  filenoOk : Bool
  /-- the fallback path check `hasattr(stdout, "seekable") and stdout.seekable()`
  (a raise inside this test is caught and behaves like `false`). -/
  seekable : Bool
  /-- per-iteration oracle outcomes. -/
  iters : List (SelEv × ReadEv)

/-- Embeds `_maybe_parse` (backend.py 190-197): parse and capture when requested;
parse failures are swallowed. -/
def maybeParse (capture : Bool) (m : SessionMeta) (p : Option JVal) : SessionMeta :=
  if capture then
    match p with
    | some j => capture_session_metadata m j
    | none => m
  else m

/-- The fd path of `_drain_stdout` (backend.py 213-220): up to 50 iterations
of zero-timeout select + readline; select or readline raising is NOT caught
here.  Returns the metadata (or the escaping exception) and the number of
lines read. -/
def drainFdLoop (capture : Bool) :
    List (SelEv × ReadEv) → SessionMeta → Nat → (Except Unit SessionMeta) × Nat
  | [], m, n => (.ok m, n)
  | (sel, rd) :: rest, m, n =>
    match sel with
    | .fail => (.error (), n)
    | .notReady => (.ok m, n)
    | .ready =>
      match rd with
      | .fail => (.error (), n)
      | .eof => (.ok m, n)
      | .line p => drainFdLoop capture rest (maybeParse capture m p) (n + 1)

/-- The no-fileno fallback path (backend.py 202-211): up to 50 readlines, the
whole loop wrapped in try/except, so a readline raise ends the drain without
escaping. -/
def drainFallbackLoop (capture : Bool) :
    List ReadEv → SessionMeta → Nat → SessionMeta × Nat
  | [], m, n => (m, n)
  | rd :: rest, m, n =>
    match rd with
    | .fail => (m, n)
    | .eof => (m, n)
    | .line p => drainFallbackLoop capture rest (maybeParse capture m p) (n + 1)

/-- Embeds `SharedSession._drain_stdout` (backend.py 184-220): absent stdout is a
no-op; a failing `fileno()` selects the guarded fallback path; otherwise the
fd path runs, bounded to 50 iterations. -/
def drain_stdout (w : StdoutChan) (m : SessionMeta) (capture : Bool) :
    (Except Unit SessionMeta) × Nat :=
  if !w.present then (.ok m, 0)
  else if w.filenoOk then drainFdLoop capture (w.iters.take 50) m 0
  else if w.seekable then
    (.ok (drainFallbackLoop capture ((w.iters.take 50).map (·.2)) m 0).1,
     (drainFallbackLoop capture ((w.iters.take 50).map (·.2)) m 0).2)
  else (.ok m, 0)

/-- No oracle outcome in the first 50 iterations is a raising select or
readline. -/
def fdItersClean (l : List (SelEv × ReadEv)) : Bool :=
  (l.take 50).all fun i =>
    (match i.1 with
     | .fail => false
     | _ => true) &&
    (match i.2 with
     | .fail => false
     | _ => true)

/-! ### `SharedSession.stop` (backend.py 89-116)

The wall-clock wait loop is abstracted to a list of iterations (the loop ends
at the end of the list, standing for a poll that reports exit or for the 5-second
deadline); each iteration records whether its drain call raises.  The
session-local fields mutated by `stop` are the handle (`proc`), `first_turn`
and `stopped`; an `Except.error` result is an exception escaping `stop`, in
which case the trailing reset assignments never run. -/

/-- The OS-level behaviour `stop` encounters. -/
structure StopWorld where
  /-- `self.proc` is set. -/
  hasProc : Bool
  /-- the initial `self.proc.poll() is None`. -/
  aliveAtStart : Bool
  /-- wait-loop iterations: `true` = the drain call of that iteration raises. -/
  waitSteps : List Bool
  /-- the drain after the wait loop raises. -/
  finalDrainFails : Bool
  /-- `self.proc.poll() is None` after the wait (escalation needed). -/
  alivePostWait : Bool
  /-- `self.proc.terminate()` raises. -/
  terminateFails : Bool
  /-- the drain after terminate raises. -/
  postTermDrainFails : Bool
  /-- `self.proc.kill()` in the except handler raises. -/
  killFails : Bool

/-- The session-local fields `stop` is required to reset. -/
structure SessFlags where
  /-- `self.proc is None`. -/
  procCleared : Bool
  first_turn : Bool
  stopped : Bool
deriving DecidableEq

/-- The flags after a completed `stop` (backend.py 114-116). -/
def stoppedFlags : SessFlags := ⟨true, true, true⟩

/-- The graceful wait loop (backend.py 98-103): each iteration drains; a
raising drain escapes the loop (and the try block). -/
def stopWaitLoop : List Bool → Except Unit Unit
  | [] => .ok ()
  | drainRaises :: rest =>
    if drainRaises then .error () else stopWaitLoop rest

/-- The try block of `stop` (backend.py 91-107): sentinel write (its failure
is swallowed by an inner try), wait loop, final drain, then terminate + drain
if still alive. -/
def stopTryBody (w : StopWorld) : Except Unit Unit := do
  stopWaitLoop w.waitSteps
  if w.finalDrainFails then .error () else .ok ()
  if w.alivePostWait then
    if w.terminateFails then .error ()
    else if w.postTermDrainFails then .error ()
    else .ok ()
  else .ok ()

/-- Embeds `SharedSession.stop` (backend.py 89-116): run the try body; on an escaping
exception, drain best-effort (swallowed) and `kill()` — whose own exception
is NOT caught and prevents the trailing reset; otherwise clear the handle,
reset `first_turn` and set `stopped`. -/
def stopModel (w : StopWorld) (s0 : SessFlags) : Except Unit SessFlags :=
  if w.hasProc && w.aliveAtStart then
    match stopTryBody w with
    | .ok _ => .ok stoppedFlags
    | .error _ => if w.killFails then .error () else .ok stoppedFlags
  else
    let _ := s0
    .ok stoppedFlags

/-! ### The background worker (magic.py 243-261, 288-349)

Each pass of `_worker_loop` dequeues one item; the oracle records what the
queue produced and, for a request, whether its processing body raised,
whether the error handler inside `_process_codex_request` raised while
handling it, and whether the logging of the worker itself raised. -/

/-- The dequeue outcome of one iteration. -/
inductive WStep where
  /-- `_CODEX_QUEUE is None` at the top of the loop. -/
  | queueGone
  /-- `queue.get(timeout=0.5)` raised `queue.Empty`. -/
  | getEmpty
  /-- the poison pill `None` was dequeued. -/
  | getSentinel
  /-- a request was dequeued; `bodyFails` = its processing raised,
  `handlerFails` = the except-branch display/log raised while handling that
  error, `logFails` = the `_log` call of the worker itself raised. -/
  | getRequest (bodyFails handlerFails logFails : Bool)

/-- How the worker loop ended. -/
inductive WExit where
  | queueAbsent
  | sentinelReceived
  /-- the oracle ran out: the loop is still running. -/
  | outOfSteps
  /-- an exception escaped the loop body uncaught. -/
  | crashed
deriving DecidableEq

/-- Embeds `_process_codex_request` (magic.py 288-349): the body is wrapped in
try/except; an exception raised by the except branch itself (display update /
logging) escapes. -/
def processRequest (bodyFails handlerFails : Bool) : Except Unit Unit :=
  if bodyFails then
    if handlerFails then .error () else .ok ()
  else .ok ()

/-- What one iteration of `_worker_loop` (magic.py 246-261) tells the loop to
do next.  `Except.error` would be an exception escaping the iteration — the
`except Exception` arm catches everything from request processing, and its
`_log` call sits in its own try/except, so no branch produces one. -/
inductive IterCmd where
  | breakAbsent
  | breakSentinel
  | continueLoop

/-- One iteration of `_worker_loop`. -/
def workerIter : WStep → Except Unit IterCmd
  | .queueGone => .ok .breakAbsent
  | .getEmpty => .ok .continueLoop
  | .getSentinel => .ok .breakSentinel
  | .getRequest bodyFails handlerFails logFails =>
    match processRequest bodyFails handlerFails with
    | .ok _ => .ok .continueLoop
    | .error _ =>
      -- except Exception: try _log(...) except: pass
      let _ := logFails
      .ok .continueLoop

/-- Embeds `_worker_loop` (magic.py 243-261) driven by the dequeue oracle. -/
def workerLoop : List WStep → WExit
  | [] => .outOfSteps
  | step :: rest =>
    match workerIter step with
    | .error _ => .crashed
    | .ok .breakAbsent => .queueAbsent
    | .ok .breakSentinel => .sentinelReceived
    | .ok .continueLoop => workerLoop rest

/-! ### `_extract_final_message` (magic.py 603-639) -/

/-- The `final_message` stage: a string field with non-whitespace content. -/
def stageFinal (kvs : List (String × JVal)) : Option String :=
  match jLookup kvs "final_message" with
  | some (.str s) => if pyStrip s ≠ "" then some s else none
  | _ => none

/-- The `summary` stage: a string field with non-whitespace content. -/
def stageSummary (kvs : List (String × JVal)) : Option String :=
  match jLookup kvs "summary" with
  | some (.str s) => if pyStrip s ≠ "" then some s else none
  | _ => none

/-- The `errors` stage: a non-empty list whose first entry is a string, or a
mapping carrying a string `message`; the result is prefixed `Error: `. -/
def stageErrors (kvs : List (String × JVal)) : Option String :=
  match jLookup kvs "errors" with
  | some (.arr (first :: _)) =>
    match first with
    | .str s => some ("Error: " ++ s)
    | .obj fkvs =>
      match jLookup fkvs "message" with
      | some (.str msg) => some ("Error: " ++ msg)
      | some _ => none
      | none => none
    | _ => none
  | _ => none

/-- The `status` stage: a non-empty string field (not stripped). -/
def stageStatus (kvs : List (String × JVal)) : Option String :=
  match jLookup kvs "status" with
  | some (.str s) => if s ≠ "" then some s else none
  | _ => none

/-- The agent-message fallback (magic.py 625-636): the first event whose
`item` is a mapping of type `agent_message` with non-whitespace `text`. -/
def agentMessageText : List JVal → Option String
  | [] => none
  | ev :: rest =>
    match ev with
    | .obj ekvs =>
      match jLookup ekvs "item" with
      | some (.obj ikvs) =>
        if typeIs ikvs "agent_message" then
          match jLookup ikvs "text" with
          | some (.str s) => if pyStrip s ≠ "" then some s else agentMessageText rest
          | _ => agentMessageText rest
        else agentMessageText rest
      | _ => agentMessageText rest
    | _ => agentMessageText rest

/-- The `events` stage. -/
def stageEvents (kvs : List (String × JVal)) : Option String :=
  match jLookup kvs "events" with
  | some (.arr evs) => agentMessageText evs
  | _ => none

/-- Embeds `_extract_final_message` (magic.py 603-639): for a mapping, the stage
chain final_message → summary → errors → status → events; a plain string is
returned unchanged; anything else yields the empty string.  Every access in
the source is isinstance-guarded, so the function is total. -/
def extract_final_message (result : JVal) : String :=
  match result with
  | .obj kvs =>
    match stageFinal kvs with
    | some s => s
    | none =>
      match stageSummary kvs with
      | some s => s
      | none =>
        match stageErrors kvs with
        | some s => s
        | none =>
          match stageStatus kvs with
          | some s => s
          | none =>
            match stageEvents kvs with
            | some s => s
            | none => ""
  | .str s => s
  | _ => ""

/-- Field `k` is unusable for the final_message/summary stages of
`_extract_final_message`: any string value it carries strips to empty.  This
also covers an absent field and a non-string value (the quantification is
then vacuous), i.e. exactly the cases where the source falls through. -/
def strFieldUnusable (kvs : List (String × JVal)) (k : String) : Prop :=
  ∀ s, jLookup kvs k = some (JVal.str s) → pyStrip s = ""

/-- The `errors` field is unusable for its fallback: whenever it is a
non-empty list, its first entry is neither a string nor a mapping carrying a
string `message`.  Absent, non-list and empty-list fields are covered
vacuously. -/
def errorsUnusable (kvs : List (String × JVal)) : Prop :=
  ∀ first rest, jLookup kvs "errors" = some (JVal.arr (first :: rest)) →
    (∀ s, first ≠ JVal.str s) ∧
    (∀ fkvs, first = JVal.obj fkvs →
      ∀ msg, jLookup fkvs "message" ≠ some (JVal.str msg))

/-- The `status` field is unusable for its fallback: any string it carries is
empty (absent and non-string fields covered vacuously). -/
def statusUnusable (kvs : List (String × JVal)) : Prop :=
  ∀ s, jLookup kvs "status" = some (JVal.str s) → s = ""

/-- The `events` field is unusable for the agent-message fallback: any events
list it carries has no agent_message item with usable text (absent and
non-list fields covered vacuously). -/
def eventsUnusable (kvs : List (String × JVal)) : Prop :=
  ∀ evs, jLookup kvs "events" = some (JVal.arr evs) → agentMessageText evs = none

/-! ## Theorems -/

/-- C9: the background worker loop exits only when it dequeues the sentinel
or finds the queue absent; an exception raised while processing a request —
including one raised while handling the errors of that request, and even a
failing log call in the own handler of the worker — never terminates the loop, which
proceeds to the next queued item. -/
theorem c9_worker_loop_survives_errors :
    (∀ steps, workerLoop steps ≠ WExit.crashed) ∧
    (∀ bodyFails handlerFails logFails rest,
      workerLoop (WStep.getRequest bodyFails handlerFails logFails :: rest) =
        workerLoop rest) ∧
    (∀ rest, workerLoop (WStep.getEmpty :: rest) = workerLoop rest) ∧
    (∀ rest, workerLoop (WStep.queueGone :: rest) = WExit.queueAbsent) ∧
    (∀ rest, workerLoop (WStep.getSentinel :: rest) = WExit.sentinelReceived) := by
  have hreq : ∀ bodyFails handlerFails logFails rest,
      workerLoop (WStep.getRequest bodyFails handlerFails logFails :: rest) =
        workerLoop rest := by
    intro b h lf rest
    cases b <;> cases h <;> simp [workerLoop, workerIter, processRequest]
  refine ⟨?_, hreq, fun rest => rfl, fun rest => rfl, fun rest => rfl⟩
  intro steps
  induction steps with
  | nil => simp [workerLoop]
  | cons step rest ih =>
    cases step with
    | queueGone => simp [workerLoop, workerIter]
    | getEmpty => simpa [workerLoop, workerIter] using ih
    | getSentinel => simp [workerLoop, workerIter]
    | getRequest b h lf => rw [hreq]; exact ih

/-- C9 witness: a request whose processing, error handling and logging all
fail is skipped over and the following sentinel still stops the worker. -/
theorem c9_worker_loop_survives_errors_witness :
    workerLoop [WStep.getRequest true true true, WStep.getSentinel] =
      WExit.sentinelReceived := by
  rw [c9_worker_loop_survives_errors.2.1]
  exact c9_worker_loop_survives_errors.2.2.2.2 []

/-- C5: peeking is non-destructive — any number of `build_block` calls with
`peek = true` leaves `last_seen` (the whole tracker) unchanged, and a
subsequent non-peek call returns exactly what it would have returned had no
peek occurred. -/
theorem c5_peek_nondestructive :
    (∀ tr history outputs maxCells maxChars,
      (build_block tr history outputs maxCells maxChars true).2 = tr) ∧
    (∀ tr args, peekMany tr args = tr) ∧
    (∀ tr args history outputs maxCells maxChars,
      build_block (peekMany tr args) history outputs maxCells maxChars false =
        build_block tr history outputs maxCells maxChars false) := by
  have hone : ∀ tr history outputs maxCells maxChars,
      (build_block tr history outputs maxCells maxChars true).2 = tr := by
    intro tr h o mc mx
    unfold build_block
    cases hc : (build_cells tr h o mc mx).isEmpty <;> simp [hc]
  have hmany : ∀ args tr, peekMany tr args = tr := by
    intro args
    induction args with
    | nil => intro tr; rfl
    | cons a rest ih =>
      intro tr
      rw [peekMany, hone]
      exact ih tr
  exact ⟨hone, fun tr args => hmany args tr, fun tr args h o mc mx => by
    rw [hmany args tr]⟩

/-- C7, counterexample to the claim as stated: when an internal failure
aborts the graceful path (here the first drain of the wait loop raises) and
the forceful `kill()` itself raises, `stop` does raise — and the reset
assignments never run. -/
theorem c7_counterexample_kill_raises :
    stopModel ⟨true, true, [true], false, false, false, false, true⟩
      ⟨false, false, false⟩ = .error () := rfl

/-- C7, amended: `stop` returns without raising — with the process handle
cleared, `first_turn` reset to true and `stopped` set — for every session
state and every combination of internal termination failures, provided the
last-resort `kill()` does not itself raise (its call in the except handler is
the one operation not wrapped); and whenever `stop` does return normally, the
local state is fully reset. -/
theorem c7_stop_amended (w : StopWorld) (s0 : SessFlags) :
    (w.killFails = false → stopModel w s0 = .ok stoppedFlags) ∧
    (∀ s, stopModel w s0 = .ok s → s = stoppedFlags) := by
  constructor
  · intro hk
    unfold stopModel
    split
    · cases htry : stopTryBody w <;> simp [hk]
    · rfl
  · intro s hs
    unfold stopModel at hs
    split at hs
    · cases htry : stopTryBody w <;> rw [htry] at hs
      · cases hk : w.killFails <;> rw [hk] at hs <;> simp_all
      · simp_all
    · simp_all

/-- C7 witness: a concrete world where the graceful path fails but kill
succeeds; `stop` completes and resets the flags. -/
theorem c7_stop_amended_witness :
    stopModel ⟨true, true, [true], false, false, false, false, false⟩
      ⟨false, false, false⟩ = .ok stoppedFlags :=
  (c7_stop_amended ⟨true, true, [true], false, false, false, false, false⟩
    ⟨false, false, false⟩).1 rfl

/-- Helper: the fd drain path reads at most as many lines as it has oracle
iterations. -/
theorem drainFdLoop_count_le (capture : Bool) :
    ∀ (l : List (SelEv × ReadEv)) (m : SessionMeta) (n : Nat),
      (drainFdLoop capture l m n).2 ≤ n + l.length := by
  intro l
  induction l with
  | nil => intro m n; simp [drainFdLoop]
  | cons i rest ih =>
    intro m n
    obtain ⟨sel, rd⟩ := i
    cases sel with
    | fail => simp [drainFdLoop]
    | notReady => simp [drainFdLoop]
    | ready =>
      cases rd with
      | fail => simp [drainFdLoop]
      | eof => simp [drainFdLoop]
      | line p =>
        simp only [drainFdLoop, List.length_cons]
        have h := ih (maybeParse capture m p) (n + 1)
        omega

/-- Helper: the fallback drain path reads at most as many lines as it has
oracle iterations. -/
theorem drainFallbackLoop_count_le (capture : Bool) :
    ∀ (l : List ReadEv) (m : SessionMeta) (n : Nat),
      (drainFallbackLoop capture l m n).2 ≤ n + l.length := by
  intro l
  induction l with
  | nil => intro m n; simp [drainFallbackLoop]
  | cons rd rest ih =>
    intro m n
    cases rd with
    | fail => simp [drainFallbackLoop]
    | eof => simp [drainFallbackLoop]
    | line p =>
      simp only [drainFallbackLoop, List.length_cons]
      have h := ih (maybeParse capture m p) (n + 1)
      omega

/-- Helper: when no oracle outcome raises, the fd drain path completes
normally. -/
theorem drainFdLoop_ok_of_clean (capture : Bool) :
    ∀ (l : List (SelEv × ReadEv)) (m : SessionMeta) (n : Nat),
      (l.all fun i =>
        (match i.1 with
         | .fail => false
         | _ => true) &&
        (match i.2 with
         | .fail => false
         | _ => true)) = true →
      (drainFdLoop capture l m n).1.isOk = true := by
  intro l
  induction l with
  | nil => intro m n _; simp [drainFdLoop, Except.isOk, Except.toBool]
  | cons i rest ih =>
    intro m n hall
    obtain ⟨sel, rd⟩ := i
    simp only [List.all_cons, Bool.and_eq_true] at hall
    cases sel with
    | fail => simp_all
    | notReady => simp [drainFdLoop, Except.isOk, Except.toBool]
    | ready =>
      cases rd with
      | fail => simp_all
      | eof => simp [drainFdLoop, Except.isOk, Except.toBool]
      | line p => exact ih _ _ hall.2

/-- C8, counterexample to the claim as stated: `_drain_stdout` can raise —
the `select`/`readline` calls of the fd path are not wrapped in try/except, so a
failing channel propagates an exception out of a single drain call. -/
theorem c8_counterexample_drain_raises :
    (drain_stdout ⟨true, true, false, [(SelEv.fail, ReadEv.eof)]⟩
        ⟨none, none, none⟩ true).1 = .error () := rfl

/-- C8, amended: a single `_drain_stdout` call always terminates having read
at most the fixed cap of 50 lines, for every channel state; it never raises
when the stream has no usable `fileno` (the fallback path swallows
everything), and on the fd path it never raises provided none of the (at most
50) `select`/`readline` calls themselves raise — but an exception from those
calls propagates. -/
theorem c8_drain_bounded_amended (w : StdoutChan) (m : SessionMeta) (capture : Bool) :
    ((drain_stdout w m capture).2 ≤ 50) ∧
    (w.filenoOk = false → (drain_stdout w m capture).1.isOk = true) ∧
    (fdItersClean w.iters = true → (drain_stdout w m capture).1.isOk = true) := by
  refine ⟨?_, ?_, ?_⟩
  · unfold drain_stdout
    split
    · simp
    · split
      · have h := drainFdLoop_count_le capture (w.iters.take 50) m 0
        have hlen : (w.iters.take 50).length ≤ 50 := List.length_take_le 50 w.iters
        omega
      · split
        · have h := drainFallbackLoop_count_le capture ((w.iters.take 50).map (·.2)) m 0
          have hlen : ((w.iters.take 50).map (·.2)).length ≤ 50 := by
            rw [List.length_map]
            exact List.length_take_le 50 w.iters
          omega
        · simp
  · intro hf
    unfold drain_stdout
    cases hp : w.present with
    | false => simp [Except.isOk, Except.toBool]
    | true =>
      cases hs : w.seekable <;> simp [hf, hs, Except.isOk, Except.toBool]
  · intro hclean
    unfold fdItersClean at hclean
    unfold drain_stdout
    cases hp : w.present with
    | false => simp [Except.isOk, Except.toBool]
    | true =>
      cases hfo : w.filenoOk with
      | true =>
        simp only [hfo, Bool.not_true, Bool.false_eq_true, if_false, if_true]
        exact drainFdLoop_ok_of_clean capture _ m 0 hclean
      | false =>
        cases hs : w.seekable <;> simp [hfo, hs, Except.isOk, Except.toBool]

/-- C8 witness: a clean buffered channel is drained without raising. -/
theorem c8_drain_bounded_amended_witness :
    (drain_stdout ⟨true, true, false, [(SelEv.ready, ReadEv.line none), (SelEv.notReady, ReadEv.eof)]⟩
        ⟨none, none, none⟩ false).1.isOk = true :=
  (c8_drain_bounded_amended
    ⟨true, true, false, [(SelEv.ready, ReadEv.line none), (SelEv.notReady, ReadEv.eof)]⟩
    ⟨none, none, none⟩ false).2.2 (by decide)

/-- Helper: how `_capture_session_metadata` may change `session_id`: never
back to None once set, and only to a string the event actually carries. -/
theorem capture_session_id_spec (cur : Option String) (e : JVal) :
    (cur.isSome = true → (capture_session_id cur e).isSome = true) ∧
    (capture_session_id cur e ≠ cur →
      ∃ s, capture_session_id cur e = some s ∧ carriesStr e "session_id" s) := by
  cases e with
  | obj kvs =>
    cases ht : typeIs kvs "session.resume" <;>
      cases h1 : strField kvs "session_id" <;>
        cases h2 : msgStrField kvs "session_id" <;>
          cases hc : cur <;>
            simp_all [capture_session_id, carriesStr, setIfStr]
  | null => simp [capture_session_id]
  | bool b => simp [capture_session_id]
  | num n => simp [capture_session_id]
  | str s => simp [capture_session_id]
  | arr xs => simp [capture_session_id]

/-- Helper: how `_capture_session_metadata` may change `resume_command`:
never back to None once set, and only to a string carried by a
`session.resume` event. -/
theorem capture_resume_command_spec (cur : Option String) (e : JVal) :
    (cur.isSome = true → (capture_resume_command cur e).isSome = true) ∧
    (capture_resume_command cur e ≠ cur →
      ∃ s, capture_resume_command cur e = some s ∧ carriesStr e "resume_command" s) := by
  cases e with
  | obj kvs =>
    cases ht : typeIs kvs "session.resume" <;>
      cases h1 : strField kvs "resume_command" <;>
        cases hc : cur <;>
          simp_all [capture_resume_command, carriesStr, setIfStr]
  | null => simp [capture_resume_command]
  | bool b => simp [capture_resume_command]
  | num n => simp [capture_resume_command]
  | str s => simp [capture_resume_command]
  | arr xs => simp [capture_resume_command]

/-- Helper: how `_capture_session_metadata` may change `rollout_path`: never
back to None once set, and only to a string the event actually carries. -/
theorem capture_rollout_path_spec (cur : Option String) (e : JVal) :
    (cur.isSome = true → (capture_rollout_path cur e).isSome = true) ∧
    (capture_rollout_path cur e ≠ cur →
      ∃ s, capture_rollout_path cur e = some s ∧ carriesStr e "rollout_path" s) := by
  cases e with
  | obj kvs =>
    cases ht : typeIs kvs "session.resume" <;>
      cases h1 : strField kvs "rollout_path" <;>
        cases h2 : msgStrField kvs "rollout_path" <;>
          cases hc : cur <;>
            simp_all [capture_rollout_path, carriesStr, setIfStr]
  | null => simp [capture_rollout_path]
  | bool b => simp [capture_rollout_path]
  | num n => simp [capture_rollout_path]
  | str s => simp [capture_rollout_path]
  | arr xs => simp [capture_rollout_path]

/-- C2, counterexample to the claim as stated: a `session.resume` event whose
`session_id` field is the empty string overwrites a previously non-empty
`session_id` — the isinstance check admits any string, so "only overwritten
when the new value is a non-empty string" fails. -/
theorem c2_counterexample_resume_empty_overwrite :
    (capture_session_metadata ⟨some "abc", none, none⟩
        (.obj [("type", .str "session.resume"), ("session_id", .str "")])).session_id
      = some "" ∧ ¬ (("" : String) = "abc") := by
  constructor
  · rfl
  · decide

/-- C2, amended: none of the three metadata fields is ever reset to nil, and
a field changes only to a string value the event actually carries for it
(top-level or under `msg`) — an event lacking the field, or carrying a
non-string value, leaves it unchanged; however the carried string may be
empty, since a `session.resume` event overwrites with any string value. -/
theorem c2_metadata_update_amended (m : SessionMeta) (e : JVal) :
    ((m.session_id.isSome = true →
        ((capture_session_metadata m e).session_id).isSome = true) ∧
     ((capture_session_metadata m e).session_id ≠ m.session_id →
        ∃ s, (capture_session_metadata m e).session_id = some s ∧
          carriesStr e "session_id" s)) ∧
    ((m.resume_command.isSome = true →
        ((capture_session_metadata m e).resume_command).isSome = true) ∧
     ((capture_session_metadata m e).resume_command ≠ m.resume_command →
        ∃ s, (capture_session_metadata m e).resume_command = some s ∧
          carriesStr e "resume_command" s)) ∧
    ((m.rollout_path.isSome = true →
        ((capture_session_metadata m e).rollout_path).isSome = true) ∧
     ((capture_session_metadata m e).rollout_path ≠ m.rollout_path →
        ∃ s, (capture_session_metadata m e).rollout_path = some s ∧
          carriesStr e "rollout_path" s)) :=
  ⟨capture_session_id_spec m.session_id e,
   capture_resume_command_spec m.resume_command e,
   capture_rollout_path_spec m.rollout_path e⟩

/-- C2 witness: a non-empty `session_id` stays set across an unrelated
event. -/
theorem c2_metadata_update_amended_witness :
    ((capture_session_metadata ⟨some "abc", none, none⟩
        (.obj [("other", .num 1)])).session_id).isSome = true :=
  (c2_metadata_update_amended ⟨some "abc", none, none⟩
      (.obj [("other", .num 1)])).1.1 rfl

/-- Helper: an unusable `final_message` field (absent, non-string, or
stripping to empty) makes the first stage fall through. -/
theorem stageFinal_none_of_unusable {kvs : List (String × JVal)}
    (h : strFieldUnusable kvs "final_message") : stageFinal kvs = none := by
  unfold stageFinal
  cases hl : jLookup kvs "final_message" with
  | none => rfl
  | some v =>
    cases v with
    | str s => simp [h s hl]
    | null => rfl
    | bool b => rfl
    | num n => rfl
    | arr xs => rfl
    | obj kvs2 => rfl

/-- Helper: an unusable `summary` field makes the summary stage fall
through. -/
theorem stageSummary_none_of_unusable {kvs : List (String × JVal)}
    (h : strFieldUnusable kvs "summary") : stageSummary kvs = none := by
  unfold stageSummary
  cases hl : jLookup kvs "summary" with
  | none => rfl
  | some v =>
    cases v with
    | str s => simp [h s hl]
    | null => rfl
    | bool b => rfl
    | num n => rfl
    | arr xs => rfl
    | obj kvs2 => rfl

/-- Helper: an unusable `errors` field makes the errors stage fall
through. -/
theorem stageErrors_none_of_unusable {kvs : List (String × JVal)}
    (h : errorsUnusable kvs) : stageErrors kvs = none := by
  unfold stageErrors
  cases hl : jLookup kvs "errors" with
  | none => rfl
  | some v =>
    cases v with
    | arr l =>
      cases l with
      | nil => rfl
      | cons first rest =>
        obtain ⟨h1, h2⟩ := h first rest hl
        cases first with
        | str s => exact absurd rfl (h1 s)
        | obj fkvs =>
          show (match jLookup fkvs "message" with
                | some (JVal.str msg) => some ("Error: " ++ msg)
                | some _ => none
                | none => none) = none
          cases hm : jLookup fkvs "message" with
          | none => rfl
          | some mv =>
            cases mv with
            | str msg => exact absurd hm (h2 fkvs rfl msg)
            | null => rfl
            | bool b => rfl
            | num n => rfl
            | arr xs => rfl
            | obj k2 => rfl
        | null => rfl
        | bool b => rfl
        | num n => rfl
        | arr xs => rfl
    | str s => rfl
    | null => rfl
    | bool b => rfl
    | num n => rfl
    | obj k2 => rfl

/-- Helper: an unusable `status` field makes the status stage fall
through. -/
theorem stageStatus_none_of_unusable {kvs : List (String × JVal)}
    (h : statusUnusable kvs) : stageStatus kvs = none := by
  unfold stageStatus
  cases hl : jLookup kvs "status" with
  | none => rfl
  | some v =>
    cases v with
    | str s => simp [h s hl]
    | null => rfl
    | bool b => rfl
    | num n => rfl
    | arr xs => rfl
    | obj kvs2 => rfl

/-- Helper: an unusable `events` field makes the agent-message stage fall
through. -/
theorem stageEvents_none_of_unusable {kvs : List (String × JVal)}
    (h : eventsUnusable kvs) : stageEvents kvs = none := by
  unfold stageEvents
  cases hl : jLookup kvs "events" with
  | none => rfl
  | some v =>
    cases v with
    | arr evs => exact h evs hl
    | str s => rfl
    | null => rfl
    | bool b => rfl
    | num n => rfl
    | obj k2 => rfl

/-- C10: `_extract_final_message` always returns a string (the embedded
function is total — every access in the source is isinstance-guarded): a
mapping with a non-whitespace string `final_message` yields exactly that
string; a plain string input is returned unchanged; otherwise — that is,
whenever each earlier field is unusable (absent, of the wrong type, or with
empty/whitespace-only content), not merely absent — the fallbacks apply in
order: `summary`, the first entry of `errors` (a string, or a mapping with a
string `message`, prefixed `Error: `), a non-empty `status`, the first
agent_message item text under `events`; and the empty string results when
none apply (including for non-mapping, non-string inputs). -/
theorem c10_extract_final_message_spec :
    (∀ s, extract_final_message (.str s) = s) ∧
    (∀ kvs s, jLookup kvs "final_message" = some (.str s) → pyStrip s ≠ "" →
      extract_final_message (.obj kvs) = s) ∧
    (∀ kvs s, strFieldUnusable kvs "final_message" →
      jLookup kvs "summary" = some (.str s) → pyStrip s ≠ "" →
      extract_final_message (.obj kvs) = s) ∧
    (∀ kvs s rest, strFieldUnusable kvs "final_message" →
      strFieldUnusable kvs "summary" →
      jLookup kvs "errors" = some (.arr (.str s :: rest)) →
      extract_final_message (.obj kvs) = "Error: " ++ s) ∧
    (∀ kvs fkvs msg rest, strFieldUnusable kvs "final_message" →
      strFieldUnusable kvs "summary" →
      jLookup kvs "errors" = some (.arr (.obj fkvs :: rest)) →
      jLookup fkvs "message" = some (.str msg) →
      extract_final_message (.obj kvs) = "Error: " ++ msg) ∧
    (∀ kvs s, strFieldUnusable kvs "final_message" →
      strFieldUnusable kvs "summary" → errorsUnusable kvs →
      jLookup kvs "status" = some (.str s) → s ≠ "" →
      extract_final_message (.obj kvs) = s) ∧
    (∀ kvs evs, strFieldUnusable kvs "final_message" →
      strFieldUnusable kvs "summary" → errorsUnusable kvs → statusUnusable kvs →
      jLookup kvs "events" = some (.arr evs) →
      extract_final_message (.obj kvs) = (agentMessageText evs).getD "") ∧
    (∀ kvs, strFieldUnusable kvs "final_message" →
      strFieldUnusable kvs "summary" → errorsUnusable kvs → statusUnusable kvs →
      eventsUnusable kvs → extract_final_message (.obj kvs) = "") ∧
    (extract_final_message .null = "" ∧
     (∀ n, extract_final_message (.num n) = "") ∧
     (∀ b, extract_final_message (.bool b) = "") ∧
     (∀ xs, extract_final_message (.arr xs) = "")) := by
  refine ⟨fun s => rfl, ?_, ?_, ?_, ?_, ?_, ?_, ?_, rfl, fun n => rfl, fun b => rfl,
    fun xs => rfl⟩
  · intro kvs s h1 hs
    simp [extract_final_message, stageFinal, h1, hs]
  · intro kvs s hfu h2 hs
    simp [extract_final_message, stageFinal_none_of_unusable hfu, stageSummary, h2, hs]
  · intro kvs s rest hfu hsu h3
    simp [extract_final_message, stageFinal_none_of_unusable hfu,
      stageSummary_none_of_unusable hsu, stageErrors, h3]
  · intro kvs fkvs msg rest hfu hsu h3 hm
    simp [extract_final_message, stageFinal_none_of_unusable hfu,
      stageSummary_none_of_unusable hsu, stageErrors, h3, hm]
  · intro kvs s hfu hsu heu h4 hs
    simp [extract_final_message, stageFinal_none_of_unusable hfu,
      stageSummary_none_of_unusable hsu, stageErrors_none_of_unusable heu,
      stageStatus, h4, hs]
  · intro kvs evs hfu hsu heu hstu h5
    cases hev : agentMessageText evs <;>
      simp [extract_final_message, stageFinal_none_of_unusable hfu,
        stageSummary_none_of_unusable hsu, stageErrors_none_of_unusable heu,
        stageStatus_none_of_unusable hstu, stageEvents, h5, hev]
  · intro kvs hfu hsu heu hstu hevu
    simp [extract_final_message, stageFinal_none_of_unusable hfu,
      stageSummary_none_of_unusable hsu, stageErrors_none_of_unusable heu,
      stageStatus_none_of_unusable hstu, stageEvents_none_of_unusable hevu]

/-- C10 witness: a mapping whose `final_message` is present but
whitespace-only falls back to the usable `summary`. -/
theorem c10_extract_final_message_spec_witness :
    extract_final_message
        (.obj [("final_message", .str " "), ("summary", .str "sum")]) = "sum" :=
  c10_extract_final_message_spec.2.2.1
    [("final_message", .str " "), ("summary", .str "sum")] "sum"
    (fun s h => by
      have h2 : some (JVal.str " ") = some (JVal.str s) := h
      injection h2 with h3
      injection h3 with h4
      rw [← h4]
      decide)
    rfl (by decide)

/-- Helper: a filterMap whose function hits on every element preserves the
length. -/
theorem length_filterMap_of_isSome {α β : Type} (f : α → Option β) :
    ∀ l : List α, (∀ x ∈ l, (f x).isSome = true) → (l.filterMap f).length = l.length := by
  intro l
  induction l with
  | nil => simp
  | cons a rest ih =>
    intro h
    cases hf : f a with
    | none =>
      have := h a (by simp)
      simp [hf] at this
    | some b =>
      have hrest := ih fun x hx => h x (List.mem_cons_of_mem a hx)
      simp [List.filterMap_cons, hf, hrest]

/-- Helper: the length of `lst[-k:]` when the list already has exactly
`k.toNat` elements. -/
theorem pyTakeLast_length_of_full {α : Type} {k : Int} {l : List α}
    (h : l.length = k.toNat) : (pyTakeLast k l).length = k.toNat := by
  simp [pyTakeLast, List.length_drop, h]

/-- Helper: a filterMap over a range whose function hits on every index has
the length of the range. -/
theorem length_filterMap_range_eq {α : Type} {f : Nat → Option α} {s n : Nat}
    (h : ∀ i ∈ List.range' s n, (f i).isSome = true) :
    ((List.range' s n).filterMap f).length = n := by
  rw [length_filterMap_of_isSome _ _ h, List.length_range']

/-- C4, counterexample to the claim as stated: with `max_cells = 2` and a
history whose most recent raw entry is a `%%codex` invocation, `build_block`
returns a single entry although three qualifying entries exist in the
history — the window is taken over the last K raw entries before filtering,
not over the K most recent qualifying entries. -/
theorem c4_counterexample_window_over_raw_entries :
    build_cells ⟨0⟩
        [some "", some "a=1", some "b=2", some "c=3", some "%%codex go"]
        (fun _ => none) (some 2) none = [(3, "c=3", "")] ∧
    qualifyingIndices
        [some "", some "a=1", some "b=2", some "c=3", some "%%codex go"]
      = [1, 2, 3] ∧
    (build_block ⟨0⟩
        [some "", some "a=1", some "b=2", some "c=3", some "%%codex go"]
        (fun _ => none) (some 2) none false).1
      = "[cell 3]" ++ "\n" ++ "code:" ++ "\n" ++ "c=3" := by
  refine ⟨?_, ?_, ?_⟩ <;> rfl

/-- C4, amended: in sliding-window mode (`max_cells = K > 0`) `build_block`
considers exactly the last K raw history entries, independently of the
cursor — so consecutive calls with no new cells see the same window — and
returns the qualifying entries among them: at most K entries, and exactly K
whenever every one of the last K raw entries qualifies; but when some of the
last K raw entries are non-qualifying (for example the magic invocation
itself), the result has fewer than K entries even if K qualifying entries
exist earlier in the history. -/
theorem c4_sliding_window_amended (tr1 tr2 : ContextTracker)
    (history : List (Option String)) (outputs : Nat → Option String)
    (k : Int) (maxChars : Option Int) (hk : 0 < k) :
    (build_cells tr1 history outputs (some k) maxChars =
      build_cells tr2 history outputs (some k) maxChars) ∧
    (∀ peek, (build_block tr1 history outputs (some k) maxChars peek).1 =
      (build_block tr2 history outputs (some k) maxChars peek).1) ∧
    ((build_cells tr1 history outputs (some k) maxChars).length ≤ k.toNat) ∧
    ((k : Int) ≤ (history.length : Int) - 1 →
      lastKAllQualify history k.toNat = true →
      (build_cells tr1 history outputs (some k) maxChars).length = k.toNat) := by
  have hwin : ∀ tr : ContextTracker,
      windowStart tr history.length (some k) = (max 1 ((history.length : Int) - k)).toNat := by
    intro tr
    simp [windowStart, if_pos hk]
  have hindep : build_cells tr1 history outputs (some k) maxChars =
      build_cells tr2 history outputs (some k) maxChars := by
    simp only [build_cells]
    rw [hwin tr1, hwin tr2]
  refine ⟨hindep, ?_, ?_, ?_⟩
  · intro peek
    simp only [build_block]
    rw [hindep]
    cases hc : (build_cells tr2 history outputs (some k) maxChars).isEmpty <;> simp [hc]
  · simp only [build_cells, if_pos hk, pyTakeLast, List.length_drop]
    omega
  · intro hL hq
    have hKle : k.toNat ≤ history.length - 1 := by omega
    have hstart : windowStart tr1 history.length (some k) = history.length - k.toNat := by
      rw [hwin tr1]
      omega
    unfold lastKAllQualify at hq
    rw [List.all_eq_true] at hq
    have hrange : history.length - (history.length - k.toNat) = k.toNat := by omega
    simp only [build_cells, hstart, hrange, if_pos hk]
    apply pyTakeLast_length_of_full
    apply length_filterMap_range_eq
    intro i hi
    have hqi := hq i hi
    cases hsrc : history.getD i none with
    | none => rw [hsrc] at hqi; simp at hqi
    | some src =>
      rw [hsrc] at hqi
      simp only at hqi
      simp [hsrc, hqi]

/-- C4 witness: a history whose last two raw entries both qualify yields
exactly two entries, from any cursor position. -/
theorem c4_sliding_window_amended_witness :
    (build_cells ⟨5⟩ [some "", some "x=1", some "y=2"]
        (fun _ => none) (some 2) none).length = 2 :=
  (c4_sliding_window_amended ⟨5⟩ ⟨0⟩ [some "", some "x=1", some "y=2"]
      (fun _ => none) 2 none (by decide)).2.2.2 (by decide) (by decide)

/-- C3, counterexample to the claim as stated: an exception raised by the
caller-supplied `on_approval` callback is NOT swallowed — it aborts the read
loop (the subsequent `turn.result` line is never consumed) and propagates to
the caller of `send`. -/
theorem c3_counterexample_approval_error_propagates :
    (sendModel none (some fun _ => .error ())
        [some (.obj [("type", .str "approval.request")]),
         some (.obj [("type", .str "turn.result"), ("result", .num 1)])]
        ⟨none, none, none⟩).outcome = .error .approvalCbError := rfl

/-- C3, amended: exceptions raised by the caller-supplied `on_event` callback
are swallowed — the outcome (terminal result and events), the captured
metadata and the approval decisions written back are identical for any two
`on_event` callbacks, raising or not; but an exception raised by
`on_approval` is not caught and propagates out of `send`, aborting the read
loop. -/
theorem c3_on_event_errors_swallowed_amended
    (onE1 onE2 : Option (JVal → Except Unit Unit))
    (onA : Option (JVal → Except Unit (Option String))) :
    ∀ lines m evs ws dva dvb,
      (sendLoop onE1 onA lines m evs ws dva).outcome =
        (sendLoop onE2 onA lines m evs ws dvb).outcome ∧
      (sendLoop onE1 onA lines m evs ws dva).meta =
        (sendLoop onE2 onA lines m evs ws dvb).meta ∧
      (sendLoop onE1 onA lines m evs ws dva).writes =
        (sendLoop onE2 onA lines m evs ws dvb).writes := by
  intro lines
  induction lines with
  | nil => intro m evs ws dva dvb; exact ⟨rfl, rfl, rfl⟩
  | cons line rest ih =>
    intro m evs ws dva dvb
    cases line with
    | none => exact ih m evs ws dva dvb
    | some j =>
      cases j with
      | obj kvs =>
        simp only [sendLoop]
        cases hap : approvalPhase onA kvs (.obj kvs) with
        | raised => exact ⟨rfl, rfl, rfl⟩
        | relayed d => exact ih _ _ _ _ _
        | fallthrough =>
          cases ht : typeIs kvs "turn.result" with
          | true =>
            cases hr : jLookup kvs "result" with
            | some r => simp [ht, hr]
            | none => simp only [ht, hr, if_true]; exact ih _ _ _ _ _
          | false => simp only [ht, Bool.false_eq_true, if_false]; exact ih _ _ _ _ _
      | null => exact ⟨rfl, rfl, rfl⟩
      | bool b => exact ⟨rfl, rfl, rfl⟩
      | num n => exact ⟨rfl, rfl, rfl⟩
      | str s => exact ⟨rfl, rfl, rfl⟩
      | arr xs => exact ⟨rfl, rfl, rfl⟩

/-- Helper: whenever the read loop returns normally it consumed a prefix of
the output lines ending at a terminal event, and the events it returns are
exactly the parsed values of that prefix (on top of the accumulator). -/
theorem sendLoop_ok_split (onE : Option (JVal → Except Unit Unit))
    (onA : Option (JVal → Except Unit (Option String))) :
    ∀ lines m evs ws dv r evsOut,
      (sendLoop onE onA lines m evs ws dv).outcome = .ok (r, evsOut) →
      ∃ pre t rest2, lines = pre ++ [some t] ++ rest2 ∧
        isTerminal t = true ∧ resultOf t = some r ∧
        evsOut = evs ++ (pre ++ [some t]).filterMap id := by
  intro lines
  induction lines with
  | nil =>
    intro m evs ws dv r evsOut h
    simp [sendLoop] at h
  | cons line rest ih =>
    intro m evs ws dv r evsOut h
    cases line with
    | none =>
      obtain ⟨pre, t, rest2, h1, h2, h3, h4⟩ := ih _ _ _ _ _ _ h
      exact ⟨none :: pre, t, rest2, by simp [h1], h2, h3, by simp [h4]⟩
    | some j =>
      cases j with
      | obj kvs =>
        simp only [sendLoop] at h
        cases hap : approvalPhase onA kvs (.obj kvs) with
        | raised => rw [hap] at h; simp at h
        | relayed d =>
          rw [hap] at h
          obtain ⟨pre, t, rest2, h1, h2, h3, h4⟩ := ih _ _ _ _ _ _ h
          refine ⟨some (.obj kvs) :: pre, t, rest2, by simp [h1], h2, h3, ?_⟩
          simp [h4]
        | fallthrough =>
          rw [hap] at h
          cases ht : typeIs kvs "turn.result" with
          | true =>
            rw [ht] at h
            cases hr : jLookup kvs "result" with
            | some r0 =>
              rw [hr] at h
              simp only [if_true] at h
              obtain ⟨hrEq, hevs⟩ : r0 = r ∧ evs ++ [JVal.obj kvs] = evsOut := by
                injection h with h5
                injection h5 with ha hb
                exact ⟨ha, hb⟩
              refine ⟨[], .obj kvs, rest, by simp, ?_, ?_, ?_⟩
              · simp [isTerminal, ht, hr]
              · rw [resultOf, hr, hrEq]
              · rw [← hevs]
                simp
            | none =>
              rw [hr] at h
              simp only [if_true] at h
              obtain ⟨pre, t, rest2, h1, h2, h3, h4⟩ := ih _ _ _ _ _ _ h
              refine ⟨some (.obj kvs) :: pre, t, rest2, by simp [h1], h2, h3, ?_⟩
              simp [h4]
          | false =>
            rw [ht] at h
            simp only [Bool.false_eq_true, if_false] at h
            obtain ⟨pre, t, rest2, h1, h2, h3, h4⟩ := ih _ _ _ _ _ _ h
            refine ⟨some (.obj kvs) :: pre, t, rest2, by simp [h1], h2, h3, ?_⟩
            simp [h4]
      | null => simp [sendLoop] at h
      | bool b => simp [sendLoop] at h
      | num n => simp [sendLoop] at h
      | str s => simp [sendLoop] at h
      | arr xs => simp [sendLoop] at h

/-- C6: a line that fails JSON parsing is skipped — processing it is
literally processing the remaining lines (it never enters the events list,
never ends the loop, never raises); and whenever `send` returns, the events
list is exactly the successfully parsed values of the lines read up to and
including the terminal event. -/
theorem c6_unparseable_lines_skipped :
    (∀ onE onA rest m evs ws dv,
      sendLoop onE onA (none :: rest) m evs ws dv =
        sendLoop onE onA rest m evs ws dv) ∧
    (∀ onE onA lines m r evsOut,
      (sendModel onE onA lines m).outcome = .ok (r, evsOut) →
      ∃ pre t rest2, lines = pre ++ [some t] ++ rest2 ∧
        isTerminal t = true ∧ resultOf t = some r ∧
        evsOut = (pre ++ [some t]).filterMap id) := by
  constructor
  · intro onE onA rest m evs ws dv
    rfl
  · intro onE onA lines m r evsOut h
    obtain ⟨pre, t, rest2, h1, h2, h3, h4⟩ :=
      sendLoop_ok_split onE onA lines m [] [] [] r evsOut h
    exact ⟨pre, t, rest2, h1, h2, h3, by simpa using h4⟩

/-- C6 witness: a run with one unparseable line before the terminal event
returns exactly the parsed terminal event. -/
theorem c6_unparseable_lines_skipped_witness :
    ∃ pre t rest2,
      ([none, some (JVal.obj [("type", JVal.str "turn.result"), ("result", JVal.num 3)])] :
          List (Option JVal)) = pre ++ [some t] ++ rest2 ∧
      isTerminal t = true ∧ resultOf t = some (JVal.num 3) ∧
      [JVal.obj [("type", JVal.str "turn.result"), ("result", JVal.num 3)]] =
        (pre ++ [some t]).filterMap id :=
  c6_unparseable_lines_skipped.2 none none
    [none, some (JVal.obj [("type", JVal.str "turn.result"), ("result", JVal.num 3)])]
    ⟨none, none, none⟩ (JVal.num 3)
    [JVal.obj [("type", JVal.str "turn.result"), ("result", JVal.num 3)]] rfl

end Cleon
